import Mathlib

/-!
Verification of the attendance/photo correlation engine of the ADMS server.

The embedding translates the Python services that own the correlation logic:

* `services/notification_service.py` — the pending-notification store
  (`pending_notifications`, a dict keyed by `user_id` and guarded by one lock),
  `add_pending_notification`, `cleanup_expired_pending_notifications`,
  `trigger_pending_notifications_sync`, `handle_notification_timeout_sync`,
  `send_notification_with_photo`.
* `services/attendance_service.py` — the per-record notification branch of
  `save_attendance_records` (photo lookup, then either an immediate background
  send or store-and-schedule-timeout).
* `services/photo_service.py` — `find_latest_photo`.

Modelling conventions:

* Python `datetime` values are modelled to second precision by `DateTime`;
  `datetime.now()` readings are threaded in as explicit `now : Int` epoch-second
  parameters (only differences of clock readings are ever used by the code).
* The dict `pending_notifications` is an association list with unique keys;
  dict lookup / `del` / assignment become `findEntry` / `eraseEntry` /
  `putEntry` on the first matching key.  Every operation the code performs on
  the dict happens inside one `with self.pending_notifications_lock` block, so
  an interleaving of two handlers is equivalent to running the two functions in
  one of the two sequential orders (the store is the only shared state).
* The Telegram notifier is a parameter `nb : NotifierBehavior`; `Except.error`
  models `send_attendance_notification` raising.  A `SyncResult` records the
  store after the call, the requests handed to the notifier, the exception
  caught by the handler's `except` block, and the exception (if any) escaping
  to the caller.
* `re` patterns `\d{14}-(\d+)\.jpg` (used both by
  `trigger_pending_notifications_sync` and by
  `PhotoUploadedEvent.__post_init__` in `utils/events.py`) and
  `(\d{14})-\d+\.jpg` (used by `find_latest_photo`) share the same shape and
  are both `re.match`, i.e. anchored at the start of the filename only; `\d` is
  modelled as the ASCII digits.  Greedy `\d+` followed by the non-digit `.` is
  deterministic, so `takeWhile` is an exact translation.
* The photo directory tree is a list of `PhotoFile` records (device folder,
  date folder, file name); a directory that does not exist is one with no
  entries.  `glob` pattern `*-{user_id}.jpg` on file names (no `/` in a name,
  `user_id` digits only, so no metacharacters) is exactly a suffix test.
  `find_latest_photo` returns the matched file's name; the enclosing directory
  path, a fixed function of `device_serial` and the scan date, is omitted from
  the returned reference.
-/

set_option maxRecDepth 10000

namespace Adms

/-- A `datetime` value at second precision. -/
structure DateTime where
  year : Nat
  month : Nat
  day : Nat
  hour : Nat
  minute : Nat
  second : Nat
deriving DecidableEq

/-- Gregorian leap-year test, as in Python's `calendar`/`datetime`. -/
def isLeapYear (y : Nat) : Bool :=
  (y % 4 == 0 && y % 100 != 0) || y % 400 == 0

/-- Cumulative days before month `m` in a non-leap year, indexed by `m`. -/
def cumDaysBeforeMonth : List Nat :=
  [0, 0, 31, 59, 90, 120, 151, 181, 212, 243, 273, 304, 334]

/-- Length of month `m` of year `y`. -/
def daysInMonth (y m : Nat) : Nat :=
  if m = 2 then (if isLeapYear y then 29 else 28)
  else [0, 31, 28, 31, 30, 31, 30, 31, 31, 30, 31, 30, 31].getD m 31

/-- The field ranges `datetime.strptime`/the `datetime` constructor accept
(`ValueError` otherwise): year 1..9999, month 1..12, day within the month,
hour 0..23, minute 0..59, second 0..59. -/
def validDateTime (t : DateTime) : Bool :=
  1 ≤ t.year && t.year ≤ 9999 && 1 ≤ t.month && t.month ≤ 12 &&
  1 ≤ t.day && t.day ≤ daysInMonth t.year t.month &&
  t.hour ≤ 23 && t.minute ≤ 59 && t.second ≤ 59

/-- Days from 0001-01-01 to the date of `t` (proleptic Gregorian ordinal - 1),
as in `datetime.toordinal`. -/
def DateTime.ordinalDays (t : DateTime) : Nat :=
  let y := t.year - 1
  365 * y + y / 4 - y / 100 + y / 400
    + cumDaysBeforeMonth.getD t.month 0
    + (if 3 ≤ t.month && isLeapYear t.year then 1 else 0)
    + (t.day - 1)

/-- Seconds since 0001-01-01 00:00:00; `datetime` subtraction is the
difference of these values. -/
def DateTime.toSecs (t : DateTime) : Int :=
  Int.ofNat (86400 * t.ordinalDays + 3600 * t.hour + 60 * t.minute + t.second)

/-- `n` zero-padded to `w` digits, as `strftime` does for `%Y`/`%m`/`%d`. -/
def zeroPad (w : Nat) (n : Nat) : String :=
  let s := toString n
  String.mk (List.replicate (w - s.length) '0') ++ s

/-- `attendance_time.strftime("%Y-%m-%d")` — the date folder name. -/
def formatDate (t : DateTime) : String :=
  zeroPad 4 t.year ++ "-" ++ zeroPad 2 t.month ++ "-" ++ zeroPad 2 t.day

/-- Numeric value of a digit character. -/
def digitVal (c : Char) : Nat := c.toNat - 48

/-- Value of a digit string, most significant first. -/
def digitsToNat (cs : List Char) : Nat :=
  cs.foldl (fun a c => 10 * a + digitVal c) 0

/-- `datetime.strptime(s, "%Y%m%d%H%M%S")` on exactly 14 digit characters:
`none` models `ValueError` on out-of-range fields. -/
def parse14 (cs : List Char) : Option DateTime :=
  match cs with
  | [y1, y2, y3, y4, o1, o2, d1, d2, h1, h2, i1, i2, s1, s2] =>
    let t : DateTime :=
      ⟨digitsToNat [y1, y2, y3, y4], digitsToNat [o1, o2], digitsToNat [d1, d2],
       digitsToNat [h1, h2], digitsToNat [i1, i2], digitsToNat [s1, s2]⟩
    if validDateTime t then some t else none
  | _ => none

/-- The characters of `".jpg"`. -/
def jpgChars : List Char := ['.', 'j', 'p', 'g']

/-- `re.match(r'(\d{14})-(\d+)\.jpg', filename)`: on success the pair of the
14 timestamp digits and the id digits.  `re.match` anchors at the start only,
so characters after `".jpg"` are allowed. -/
def matchPhotoPattern (filename : String) : Option (List Char × List Char) :=
  if (filename.toList.take 14).length = 14
      && (filename.toList.take 14).all Char.isDigit then
    match filename.toList.drop 14 with
    | [] => none
    | c :: r =>
      if c = '-' then
        if !(r.takeWhile Char.isDigit).isEmpty
            && jpgChars.isPrefixOf (r.dropWhile Char.isDigit) then
          some (filename.toList.take 14, r.takeWhile Char.isDigit)
        else none
      else none
  else none

/-- Group 1 of `re.match(r'\d{14}-(\d+)\.jpg', filename)` — the `user_id`
extraction in `trigger_pending_notifications_sync` and in
`PhotoUploadedEvent.__post_init__`. -/
def extractUserId (filename : String) : Option String :=
  (matchPhotoPattern filename).map (fun p => String.mk p.2)

/-- The timestamp parsed from the filename by `find_latest_photo`
(regex group 1 fed through `strptime`; `none` covers both a failed regex match
and a `ValueError`, each of which makes the loop `continue`). -/
def photoPrefixTime (filename : String) : Option DateTime :=
  (matchPhotoPattern filename).bind (fun p => parse14 p.1)

/-! ## The pending-notification store

`NotificationService.pending_notifications` is a dict
`user_id -> {attendance_time, device_serial, timestamp_str, in_out,
verify_mode, db, created_at}`.  `db` is an opaque SQLAlchemy session handle,
modelled as a token. -/

/-- One value of the `pending_notifications` dict, as built by
`add_pending_notification`. -/
structure PendingData where
  attendance_time : DateTime
  device_serial : String
  timestamp_str : String
  in_out : Int
  verify_mode : Int
  db : Nat
  created_at : Int
deriving DecidableEq

/-- The `pending_notifications` dict: an association list with unique keys. -/
abbrev Store := List (String × PendingData)

/-- Dict lookup (`user_id in d` / `d[user_id]`): the first matching key. -/
def findEntry : Store → String → Option PendingData
  | [], _ => none
  | (k, v) :: rest, u => if k = u then some v else findEntry rest u

/-- Dict deletion (`del d[user_id]`): removes the first matching entry. -/
def eraseEntry : Store → String → Store
  | [], _ => []
  | (k, v) :: rest, u => if k = u then rest else (k, v) :: eraseEntry rest u

/-- Dict assignment (`d[user_id] = value`): replaces in place or appends. -/
def putEntry : Store → String → PendingData → Store
  | [], u, d => [(u, d)]
  | (k, v) :: rest, u, d =>
    if k = u then (u, d) :: rest else (k, v) :: putEntry rest u d

/-- The dict's key list. -/
def storeKeys (s : Store) : List String := s.map Prod.fst

/-! ## NotificationService -/

/-- The argument record of one `telegram_notifier.send_attendance_notification`
call (the opaque `db` session argument is omitted: the sync handlers always
pass a fresh `SessionLocal()`). -/
structure NotifReq where
  user_id : String
  device_serial : String
  timestamp : DateTime
  in_out : Int
  verify_mode : Int
  photo_path : Option String
deriving DecidableEq

/-- Behaviour of the notifier on one call: `Except.error` models
`send_attendance_notification` raising. -/
def NotifierBehavior : Type := NotifReq → Except String Unit

/-- Outcome of one sync handler call: the store on return, the requests handed
to the notifier, the exception the handler's `except` block caught and logged,
and the exception escaping to the caller. -/
structure SyncResult where
  store : Store
  dispatched : List NotifReq
  caught : Option String
  raised : Option String
deriving DecidableEq

/-- `NotificationService.add_pending_notification` (`now` is the
`datetime.now()` reading stored as `created_at`). -/
def add_pending_notification (store : Store) (user_id : String)
    (attendance_time : DateTime) (device_serial timestamp_str : String)
    (in_out verify_mode : Int) (db : Nat) (now : Int) : Store :=
  putEntry store user_id
    ⟨attendance_time, device_serial, timestamp_str, in_out, verify_mode, db, now⟩

/-- The `> timedelta(minutes=5)` age bound of the cleanup sweep, in seconds. -/
def pendingMaxAgeSeconds : Int := 300

/-- `NotificationService.cleanup_expired_pending_notifications`: collect the
keys of entries strictly older than 5 minutes, delete them, return how many. -/
def cleanup_expired_pending_notifications (now : Int) (store : Store) :
    Store × Nat :=
  let expired_keys :=
    (store.filter (fun kv => decide (now - kv.2.created_at > pendingMaxAgeSeconds))).map
      Prod.fst
  (expired_keys.foldl eraseEntry store, expired_keys.length)

/-- `NotificationService.trigger_pending_notifications_sync`.  The whole body
runs inside `try`; the claim (lookup, copy, delete) is one lock-guarded block;
the notifier call happens after the lock is released, and a notifier exception
lands in the `except` block with the deletion already applied. -/
def trigger_pending_notifications_sync (nb : NotifierBehavior)
    (saved_path photo_filename device_serial : String) (store : Store) :
    SyncResult :=
  match extractUserId photo_filename with
  | none => ⟨store, [], none, none⟩
  | some user_id =>
    match findEntry store user_id with
    | none => ⟨store, [], none, none⟩
    | some pending_data =>
      let store2 := eraseEntry store user_id
      let req : NotifReq :=
        ⟨user_id, device_serial, pending_data.attendance_time,
         pending_data.in_out, pending_data.verify_mode, some saved_path⟩
      match nb req with
      | Except.ok _ => ⟨store2, [req], none, none⟩
      | Except.error e => ⟨store2, [req], some e, none⟩

/-- The `time.sleep(10)` bound of `handle_notification_timeout_sync`. -/
def timeoutDelaySeconds : Nat := 10

/-- `NotificationService.handle_notification_timeout_sync`, after its
10-second sleep: claim under the lock, then send a text-only notification
(`photo_path=None`) built from the worker's own captured arguments. -/
def handle_notification_timeout_sync (nb : NotifierBehavior)
    (user_id device_serial : String) (timestamp : DateTime)
    (in_out verify_mode : Int) (store : Store) : SyncResult :=
  match findEntry store user_id with
  | none => ⟨store, [], none, none⟩
  | some _ =>
    let store2 := eraseEntry store user_id
    let req : NotifReq :=
      ⟨user_id, device_serial, timestamp, in_out, verify_mode, none⟩
    match nb req with
    | Except.ok _ => ⟨store2, [req], none, none⟩
    | Except.error e => ⟨store2, [req], some e, none⟩

/-- `NotificationService.send_notification_with_photo`: one notifier call with
`photo_path` set; returns the requests handed over and the caught exception. -/
def send_notification_with_photo (nb : NotifierBehavior) (_db : Nat)
    (user_id device_serial : String) (timestamp : DateTime)
    (in_out verify_mode : Int) (photo_path : String) :
    List NotifReq × Option String :=
  let req : NotifReq :=
    ⟨user_id, device_serial, timestamp, in_out, verify_mode, some photo_path⟩
  match nb req with
  | Except.ok _ => ([req], none)
  | Except.error e => ([req], some e)

/-! ## PhotoService.find_latest_photo -/

/-- One stored photo file: its device folder, its date folder (the folder it
was saved under), and its file name. -/
structure PhotoFile where
  device_serial : String
  date_folder : String
  name : String
deriving DecidableEq

/-- The proximity window of `find_latest_photo`, in seconds. -/
def photoProximitySeconds : Nat := 180

/-- `glob.glob(f"{photo_dir}/*-{user_id}.jpg")` over the folder
`photo_base/device_serial/date_folder`: the names in that folder ending in
`-{user_id}.jpg`. -/
def globPhotoNames (fs : List PhotoFile)
    (device_serial user_id date_folder : String) : List String :=
  (fs.filter (fun f =>
      f.device_serial == device_serial && f.date_folder == date_folder &&
      ("-" ++ user_id ++ ".jpg").toList.isSuffixOf f.name.toList)).map
    PhotoFile.name

/-- Insert into a descending-sorted list. -/
def insertDesc (x : String) : List String → List String
  | [] => [x]
  | y :: ys => if x < y then y :: insertDesc x ys else x :: y :: ys

/-- `photos.sort(reverse=True)`: sort file names descending. -/
def sortDesc : List String → List String
  | [] => []
  | x :: xs => insertDesc x (sortDesc xs)

/-- The `for photo in photos:` loop of `find_latest_photo`: return the first
name whose parsed leading timestamp is within 180 seconds of the scan time;
names failing the regex or `strptime` are skipped. -/
def firstPhotoWithin (t : DateTime) : List String → Option String
  | [] => none
  | name :: rest =>
    match photoPrefixTime name with
    | none => firstPhotoWithin t rest
    | some pt =>
      if (t.toSecs - pt.toSecs).natAbs ≤ photoProximitySeconds then some name
      else firstPhotoWithin t rest

/-- `PhotoService.find_latest_photo`: look only in the folder for the scan's
calendar date, glob on the `-{user_id}.jpg` suffix, sort descending, return
the first photo within the window (else `None`). -/
def find_latest_photo (fs : List PhotoFile) (device_serial user_id : String)
    (attendance_time : DateTime) : Option String :=
  firstPhotoWithin attendance_time
    (sortDesc (globPhotoNames fs device_serial user_id
      (formatDate attendance_time)))

/-! ## AttendanceService.save_attendance_records — notification branch -/

/-- One parsed attendance record, with its timestamp both as the raw string
(passed to `find_latest_photo` and stored as `timestamp_str`) and parsed
(`datetime.fromisoformat` at the call boundary). -/
structure AttRecord where
  user_id : String
  ts : DateTime
  timestamp_str : String
  in_out : Int
  verify_mode : Int
deriving DecidableEq

/-- A `background_tasks.add_task(...)` call made by the notification branch:
either an immediate `send_notification_with_photo`, or a
`handle_notification_timeout_sync` worker (whose wait is the recorded number
of seconds). -/
inductive BgTask where
  | sendWithPhoto (db : Nat) (req : NotifReq)
  | timeoutWorker (delaySeconds : Nat) (user_id device_serial : String)
      (timestamp : DateTime) (in_out verify_mode : Int)
deriving DecidableEq

/-- The notification branch of `save_attendance_records` for one new record
(lines 107-140 of `attendance_service.py`): photo found now → queue an
immediate send and create no pending entry; no photo → register a pending
entry and queue a 10-second timeout worker. -/
def process_attendance_notification (fs : List PhotoFile) (now : Int)
    (db : Nat) (device_serial : String) (rec : AttRecord) (store : Store) :
    Store × List BgTask :=
  match find_latest_photo fs device_serial rec.user_id rec.ts with
  | some photo_path =>
    (store,
     [BgTask.sendWithPhoto db
        ⟨rec.user_id, device_serial, rec.ts, rec.in_out, rec.verify_mode,
         some photo_path⟩])
  | none =>
    (add_pending_notification store rec.user_id rec.ts device_serial
       rec.timestamp_str rec.in_out rec.verify_mode db now,
     [BgTask.timeoutWorker timeoutDelaySeconds rec.user_id device_serial
        rec.ts rec.in_out rec.verify_mode])

/-! ## Requests, spec-side predicates and concrete fixtures -/

/-- The request the photo path hands to the notifier on a successful claim. -/
def photoReq (uid device_serial saved_path : String) (d : PendingData) :
    NotifReq :=
  ⟨uid, device_serial, d.attendance_time, d.in_out, d.verify_mode,
   some saved_path⟩

/-- The request the timeout path hands to the notifier on a successful claim. -/
def timeoutReq (uid device_serial : String) (timestamp : DateTime)
    (in_out verify_mode : Int) : NotifReq :=
  ⟨uid, device_serial, timestamp, in_out, verify_mode, none⟩

/-- The spec's filename convention `YYYYMMDDHHMMSS-{user_id}.jpg`
("14-digit timestamp, dash, numeric id, `.jpg`"), read as the whole
filename: 14 digits, `-`, one or more digits, `.jpg`, end of string.
(Maximal-munch `takeWhile` is exact here: the digit run cannot be split
because the following character must be the non-digit `.`.) -/
def specFilenameConvention (f : String) : Bool :=
  let cs := f.toList
  let ts := cs.take 14
  let rest := cs.drop 14
  ts.length = 14 && ts.all Char.isDigit &&
  match rest with
  | '-' :: r =>
    !(r.takeWhile Char.isDigit).isEmpty && r.dropWhile Char.isDigit = jpgChars
  | _ => false

/-- The filename begins with the convention pattern — 14 digits, `-`, a
nonempty digit run, `.jpg` — with arbitrary characters allowed after. -/
def MatchesPrefixPattern (f : String) : Prop :=
  ∃ ts ds rest, f.toList = ts ++ '-' :: (ds ++ jpgChars ++ rest) ∧
    ts.length = 14 ∧ (∀ c ∈ ts, c.isDigit = true) ∧
    ds ≠ [] ∧ (∀ c ∈ ds, c.isDigit = true)

/-- The filename's parsed leading timestamp lies within the proximity
window of the scan time `t`. -/
def WithinWindow (t : DateTime) (name : String) : Prop :=
  ∃ pt, photoPrefixTime name = some pt ∧
    (t.toSecs - pt.toSecs).natAbs ≤ photoProximitySeconds

/-- Spec-side condition of the photo-lookup claim: some stored photo of this
device whose name carries this user id has a filename timestamp within the
proximity window of the scan time — with no restriction on the date folder
the photo was stored under. -/
def specStoredPhotoWithin (fs : List PhotoFile)
    (device_serial user_id : String) (t : DateTime) : Bool :=
  fs.any (fun f =>
    f.device_serial == device_serial &&
    ("-" ++ user_id ++ ".jpg").toList.isSuffixOf f.name.toList &&
    match photoPrefixTime f.name with
    | some pt => decide ((t.toSecs - pt.toSecs).natAbs ≤ photoProximitySeconds)
    | none => false)

/-- A notifier that always succeeds. -/
def nbOk : NotifierBehavior := fun _ => Except.ok ()

/-- A notifier that always raises. -/
def nbFail : NotifierBehavior := fun _ => Except.error "network down"

/-- Sample scan time 2024-01-01 09:00:00. -/
def ts0 : DateTime := ⟨2024, 1, 1, 9, 0, 0⟩

/-- Sample pending entry data. -/
def pd0 : PendingData := ⟨ts0, "DEV1", "2024-01-01 09:00:00", 0, 1, 0, 1000⟩

/-- A second, distinct sample pending entry (a later scan of the same user). -/
def pd1 : PendingData :=
  ⟨⟨2024, 1, 1, 9, 0, 5⟩, "DEV1", "2024-01-01 09:00:05", 1, 1, 0, 1005⟩

/-- Sample attendance record whose photo is already stored. -/
def rec0 : AttRecord := ⟨"07", ⟨2024, 1, 1, 9, 0, 30⟩, "2024-01-01 09:00:30", 0, 1⟩

/-- Sample photo directory: one photo of user 07 taken 2024-01-01 09:00:00. -/
def fs1 : List PhotoFile := [⟨"DEV1", "2024-01-01", "20240101090000-07.jpg"⟩]

/-- Photo directory for the cross-midnight counterexample: the photo was
taken and stored at 23:59:30 on 2024-01-01, 90 seconds before a scan at
00:01:00 on 2024-01-02. -/
def fsMidnight : List PhotoFile :=
  [⟨"DEV1", "2024-01-01", "20240101235930-07.jpg"⟩]

/-- The scan time of the cross-midnight counterexample. -/
def tsMidnight : DateTime := ⟨2024, 1, 2, 0, 1, 0⟩

/-- Store fixture for the sweep: an entry registered at clock 0 and one
registered at clock 900. -/
def sSweep : Store :=
  [("old", pd0), ("new", ⟨ts0, "DEV1", "2024-01-01 09:00:00", 0, 1, 0, 900⟩)]

/-! ## Store lemmas -/

theorem storeKeys_cons (k : String) (v : PendingData) (tl : Store) :
    storeKeys ((k, v) :: tl) = k :: storeKeys tl := rfl

theorem findEntry_cons_self (k : String) (v : PendingData) (tl : Store) :
    findEntry ((k, v) :: tl) k = some v := by
  simp [findEntry]

theorem findEntry_cons_ne {k u : String} (h : ¬ k = u) (v : PendingData)
    (tl : Store) : findEntry ((k, v) :: tl) u = findEntry tl u := by
  simp [findEntry, h]

theorem eraseEntry_cons_self (k : String) (v : PendingData) (tl : Store) :
    eraseEntry ((k, v) :: tl) k = tl := by
  simp [eraseEntry]

theorem eraseEntry_cons_ne {k u : String} (h : ¬ k = u) (v : PendingData)
    (tl : Store) : eraseEntry ((k, v) :: tl) u = (k, v) :: eraseEntry tl u := by
  simp [eraseEntry, h]

theorem putEntry_cons_self (k : String) (v d : PendingData) (tl : Store) :
    putEntry ((k, v) :: tl) k d = (k, d) :: tl := by
  simp [putEntry]

theorem putEntry_cons_ne {k u : String} (h : ¬ k = u) (v : PendingData)
    (d : PendingData) (tl : Store) :
    putEntry ((k, v) :: tl) u d = (k, v) :: putEntry tl u d := by
  simp [putEntry, h]

theorem findEntry_eq_none_of_not_mem {s : Store} {k : String}
    (h : k ∉ storeKeys s) : findEntry s k = none := by
  induction s with
  | nil => rfl
  | cons hd tl ih =>
    obtain ⟨k2, v⟩ := hd
    rw [storeKeys_cons, List.mem_cons, not_or] at h
    rw [findEntry_cons_ne (fun hk => h.1 hk.symm)]
    exact ih h.2

theorem eraseEntry_sublist (s : Store) (k : String) :
    (eraseEntry s k).Sublist s := by
  induction s with
  | nil => simp [eraseEntry]
  | cons hd tl ih =>
    obtain ⟨k2, v⟩ := hd
    by_cases hk : k2 = k
    · subst hk
      rw [eraseEntry_cons_self]
      exact List.sublist_cons_self _ _
    · rw [eraseEntry_cons_ne hk]
      exact ih.cons₂ (k2, v)

theorem storeKeys_eraseEntry_nodup {s : Store} (k : String)
    (h : (storeKeys s).Nodup) : (storeKeys (eraseEntry s k)).Nodup :=
  ((eraseEntry_sublist s k).map Prod.fst).nodup h

theorem findEntry_eraseEntry_self {s : Store} {k : String}
    (h : (storeKeys s).Nodup) : findEntry (eraseEntry s k) k = none := by
  induction s with
  | nil => rfl
  | cons hd tl ih =>
    obtain ⟨k2, v⟩ := hd
    rw [storeKeys_cons, List.nodup_cons] at h
    by_cases hk : k2 = k
    · subst hk
      rw [eraseEntry_cons_self]
      exact findEntry_eq_none_of_not_mem h.1
    · rw [eraseEntry_cons_ne hk, findEntry_cons_ne hk]
      exact ih h.2

theorem findEntry_eraseEntry_ne {s : Store} {k u : String} (h : u ≠ k) :
    findEntry (eraseEntry s k) u = findEntry s u := by
  induction s with
  | nil => rfl
  | cons hd tl ih =>
    obtain ⟨k2, v⟩ := hd
    by_cases hk : k2 = k
    · subst hk
      rw [eraseEntry_cons_self, findEntry_cons_ne (fun he => h he.symm)]
    · rw [eraseEntry_cons_ne hk]
      by_cases hu : k2 = u
      · subst hu
        rw [findEntry_cons_self, findEntry_cons_self]
      · rw [findEntry_cons_ne hu, findEntry_cons_ne hu]
        exact ih

theorem findEntry_putEntry_self (s : Store) (k : String) (d : PendingData) :
    findEntry (putEntry s k d) k = some d := by
  induction s with
  | nil => simp [putEntry, findEntry]
  | cons hd tl ih =>
    obtain ⟨k2, v⟩ := hd
    by_cases hk : k2 = k
    · subst hk
      rw [putEntry_cons_self, findEntry_cons_self]
    · rw [putEntry_cons_ne hk, findEntry_cons_ne hk]
      exact ih

theorem findEntry_putEntry_ne (s : Store) {k u : String} (d : PendingData)
    (h : u ≠ k) : findEntry (putEntry s k d) u = findEntry s u := by
  have hku : ¬ k = u := fun he => h he.symm
  induction s with
  | nil =>
    show findEntry [(k, d)] u = none
    rw [findEntry_cons_ne hku]
    rfl
  | cons hd tl ih =>
    obtain ⟨k2, v⟩ := hd
    by_cases hk : k2 = k
    · subst hk
      rw [putEntry_cons_self, findEntry_cons_ne hku, findEntry_cons_ne hku]
    · rw [putEntry_cons_ne hk]
      by_cases hu : k2 = u
      · subst hu
        rw [findEntry_cons_self, findEntry_cons_self]
      · rw [findEntry_cons_ne hu, findEntry_cons_ne hu]
        exact ih

theorem storeKeys_putEntry_cases (s : Store) (k : String) (d : PendingData) :
    ∀ u ∈ storeKeys (putEntry s k d), u ∈ storeKeys s ∨ u = k := by
  induction s with
  | nil =>
    intro u hu
    simp only [putEntry, storeKeys, List.map_cons, List.map_nil,
      List.mem_singleton] at hu
    right; exact hu
  | cons hd tl ih =>
    obtain ⟨k2, v⟩ := hd
    intro u hu
    by_cases hk : k2 = k
    · subst hk
      rw [putEntry_cons_self, storeKeys_cons, List.mem_cons] at hu
      rcases hu with hu | hu
      · right; exact hu
      · left
        rw [storeKeys_cons, List.mem_cons]
        right; exact hu
    · rw [putEntry_cons_ne hk, storeKeys_cons, List.mem_cons] at hu
      rcases hu with hu | hu
      · left
        rw [storeKeys_cons, List.mem_cons]
        left; exact hu
      · rcases ih u hu with h2 | h2
        · left
          rw [storeKeys_cons, List.mem_cons]
          right; exact h2
        · right; exact h2

theorem storeKeys_putEntry_nodup {s : Store} {k : String} (d : PendingData)
    (h : (storeKeys s).Nodup) : (storeKeys (putEntry s k d)).Nodup := by
  induction s with
  | nil =>
    show ([k] : List String).Nodup
    exact List.nodup_singleton k
  | cons hd tl ih =>
    obtain ⟨k2, v⟩ := hd
    rw [storeKeys_cons, List.nodup_cons] at h
    by_cases hk : k2 = k
    · subst hk
      rw [putEntry_cons_self, storeKeys_cons, List.nodup_cons]
      exact ⟨h.1, h.2⟩
    · rw [putEntry_cons_ne hk, storeKeys_cons, List.nodup_cons]
      refine ⟨?_, ih h.2⟩
      intro hm
      rcases storeKeys_putEntry_cases tl k d k2 hm with h2 | h2
      · exact h.1 h2
      · exact hk h2

theorem count_storeKeys_putEntry (s : Store) (k : String) (d : PendingData)
    (h : (storeKeys s).Nodup) :
    List.count k (storeKeys (putEntry s k d)) = 1 := by
  induction s with
  | nil =>
    show List.count k [k] = 1
    simp
  | cons hd tl ih =>
    obtain ⟨k2, v⟩ := hd
    rw [storeKeys_cons, List.nodup_cons] at h
    by_cases hk : k2 = k
    · subst hk
      rw [putEntry_cons_self, storeKeys_cons, List.count_cons,
        List.count_eq_zero.mpr h.1]
      simp
    · rw [putEntry_cons_ne hk, storeKeys_cons, List.count_cons, ih h.2]
      simp [hk]

theorem mem_putEntry_eq {s : Store} {k : String} {d d0 : PendingData}
    (h : (storeKeys s).Nodup) (hm : (k, d0) ∈ putEntry s k d) : d0 = d := by
  induction s with
  | nil =>
    simp only [putEntry, List.mem_singleton] at hm
    exact congrArg Prod.snd hm
  | cons hd tl ih =>
    obtain ⟨k2, v⟩ := hd
    rw [storeKeys_cons, List.nodup_cons] at h
    by_cases hk : k2 = k
    · subst hk
      rw [putEntry_cons_self, List.mem_cons] at hm
      rcases hm with hm | hm
      · exact congrArg Prod.snd hm
      · exact absurd (List.mem_map_of_mem Prod.fst hm) h.1
    · rw [putEntry_cons_ne hk, List.mem_cons] at hm
      rcases hm with hm | hm
      · exact absurd (congrArg Prod.fst hm).symm hk
      · exact ih h.2 hm

/-! ## Handler-result lemmas -/

theorem trigger_found (nb : NotifierBehavior) {photo_filename uid : String}
    (saved_path device_serial : String) {d : PendingData} {s : Store}
    (hx : extractUserId photo_filename = some uid)
    (hf : findEntry s uid = some d) :
    (trigger_pending_notifications_sync nb saved_path photo_filename
        device_serial s).store = eraseEntry s uid ∧
    (trigger_pending_notifications_sync nb saved_path photo_filename
        device_serial s).dispatched = [photoReq uid device_serial saved_path d] := by
  cases hnb : nb (photoReq uid device_serial saved_path d) <;>
    simp [trigger_pending_notifications_sync, hx, hf, photoReq] at hnb ⊢ <;>
    simp [hnb]

theorem trigger_not_found (nb : NotifierBehavior) {photo_filename uid : String}
    (saved_path device_serial : String) {s : Store}
    (hx : extractUserId photo_filename = some uid)
    (hf : findEntry s uid = none) :
    trigger_pending_notifications_sync nb saved_path photo_filename
      device_serial s = ⟨s, [], none, none⟩ := by
  simp [trigger_pending_notifications_sync, hx, hf]

theorem trigger_no_extract (nb : NotifierBehavior) {photo_filename : String}
    (saved_path device_serial : String) (s : Store)
    (hx : extractUserId photo_filename = none) :
    trigger_pending_notifications_sync nb saved_path photo_filename
      device_serial s = ⟨s, [], none, none⟩ := by
  simp [trigger_pending_notifications_sync, hx]

theorem timeout_found (nb : NotifierBehavior) {uid : String}
    (device_serial : String) (timestamp : DateTime) (in_out verify_mode : Int)
    {d : PendingData} {s : Store} (hf : findEntry s uid = some d) :
    (handle_notification_timeout_sync nb uid device_serial timestamp in_out
        verify_mode s).store = eraseEntry s uid ∧
    (handle_notification_timeout_sync nb uid device_serial timestamp in_out
        verify_mode s).dispatched
      = [timeoutReq uid device_serial timestamp in_out verify_mode] := by
  cases hnb : nb (timeoutReq uid device_serial timestamp in_out verify_mode) <;>
    simp [handle_notification_timeout_sync, hf, timeoutReq] at hnb ⊢ <;>
    simp [hnb]

theorem timeout_not_found (nb : NotifierBehavior) {uid : String}
    (device_serial : String) (timestamp : DateTime) (in_out verify_mode : Int)
    {s : Store} (hf : findEntry s uid = none) :
    handle_notification_timeout_sync nb uid device_serial timestamp in_out
      verify_mode s = ⟨s, [], none, none⟩ := by
  simp [handle_notification_timeout_sync, hf]

theorem trigger_raised_none (nb : NotifierBehavior)
    (saved_path photo_filename device_serial : String) (s : Store) :
    (trigger_pending_notifications_sync nb saved_path photo_filename
      device_serial s).raised = none := by
  cases hx : extractUserId photo_filename with
  | none => rw [trigger_no_extract nb saved_path device_serial s hx]
  | some uid =>
    cases hf : findEntry s uid with
    | none => rw [trigger_not_found nb saved_path device_serial hx hf]
    | some d =>
      cases hnb : nb (photoReq uid device_serial saved_path d) <;>
        simp [trigger_pending_notifications_sync, hx, hf, photoReq] at hnb ⊢ <;>
        simp [hnb]

theorem timeout_raised_none (nb : NotifierBehavior) (uid device_serial : String)
    (timestamp : DateTime) (in_out verify_mode : Int) (s : Store) :
    (handle_notification_timeout_sync nb uid device_serial timestamp in_out
      verify_mode s).raised = none := by
  cases hf : findEntry s uid with
  | none => rw [timeout_not_found nb device_serial timestamp in_out verify_mode hf]
  | some d =>
    cases hnb : nb (timeoutReq uid device_serial timestamp in_out verify_mode) <;>
      simp [handle_notification_timeout_sync, hf, timeoutReq] at hnb ⊢ <;>
      simp [hnb]

theorem trigger_found_caught (nb : NotifierBehavior)
    {photo_filename uid : String} (saved_path device_serial : String)
    {d : PendingData} {s : Store} {e : String}
    (hx : extractUserId photo_filename = some uid)
    (hf : findEntry s uid = some d)
    (hnb : nb (photoReq uid device_serial saved_path d) = Except.error e) :
    (trigger_pending_notifications_sync nb saved_path photo_filename
      device_serial s).caught = some e := by
  simp [trigger_pending_notifications_sync, hx, hf, photoReq] at hnb ⊢
  simp [hnb]

theorem timeout_found_caught (nb : NotifierBehavior) {uid : String}
    (device_serial : String) (timestamp : DateTime) (in_out verify_mode : Int)
    {d : PendingData} {s : Store} {e : String} (hf : findEntry s uid = some d)
    (hnb : nb (timeoutReq uid device_serial timestamp in_out verify_mode)
      = Except.error e) :
    (handle_notification_timeout_sync nb uid device_serial timestamp in_out
      verify_mode s).caught = some e := by
  simp [handle_notification_timeout_sync, hf, timeoutReq] at hnb ⊢
  simp [hnb]

/-! ## Claim theorems -/

/-- C1: for a pending entry registered under `uid`, whichever of the photo
path and the timeout path claims first dispatches exactly one request for it,
and the other path then finds the entry absent and dispatches nothing.  The
two sequential orders cover every interleaving of the two handlers: the
single lock-guarded claim block is each handler's only access to the shared
store. -/
theorem c1_exactly_one_dispatch_per_pending_entry
    (nb1 nb2 : NotifierBehavior)
    (saved_path photo_filename device_serial wdev : String) (wts : DateTime)
    (wio wvm : Int) (uid : String) (d : PendingData) (s : Store)
    (hnd : (storeKeys s).Nodup)
    (hx : extractUserId photo_filename = some uid)
    (hf : findEntry s uid = some d) :
    ((trigger_pending_notifications_sync nb1 saved_path photo_filename
        device_serial s).dispatched.length = 1 ∧
      (handle_notification_timeout_sync nb2 uid wdev wts wio wvm
        (trigger_pending_notifications_sync nb1 saved_path photo_filename
          device_serial s).store).dispatched = []) ∧
    ((handle_notification_timeout_sync nb1 uid wdev wts wio wvm s).dispatched.length
        = 1 ∧
      (trigger_pending_notifications_sync nb2 saved_path photo_filename
        device_serial
        (handle_notification_timeout_sync nb1 uid wdev wts wio wvm s).store).dispatched
        = []) := by
  obtain ⟨hs1, hd1⟩ := trigger_found nb1 saved_path device_serial hx hf
  obtain ⟨hs2, hd2⟩ := timeout_found nb1 wdev wts wio wvm hf
  refine ⟨⟨?_, ?_⟩, ?_, ?_⟩
  · rw [hd1]; rfl
  · rw [hs1, timeout_not_found nb2 wdev wts wio wvm (findEntry_eraseEntry_self hnd)]
  · rw [hd2]; rfl
  · rw [hs2, trigger_not_found nb2 saved_path device_serial hx
      (findEntry_eraseEntry_self hnd)]

theorem c1_exactly_one_dispatch_per_pending_entry_witness :
    (storeKeys [("07", pd0)]).Nodup ∧
    extractUserId "20240101090005-07.jpg" = some "07" ∧
    findEntry [("07", pd0)] "07" = some pd0 ∧
    (trigger_pending_notifications_sync nbOk "up.jpg" "20240101090005-07.jpg"
        "DEV1" [("07", pd0)]).dispatched.length = 1 ∧
    (handle_notification_timeout_sync nbOk "07" "DEV1" ts0 0 1
        (trigger_pending_notifications_sync nbOk "up.jpg"
          "20240101090005-07.jpg" "DEV1" [("07", pd0)]).store).dispatched
      = [] :=
  ⟨by decide, by decide, by decide,
    (c1_exactly_one_dispatch_per_pending_entry nbOk nbOk "up.jpg"
      "20240101090005-07.jpg" "DEV1" "DEV1" ts0 0 1 "07" pd0 [("07", pd0)]
      (by decide) (by decide) (by decide)).1.1,
    (c1_exactly_one_dispatch_per_pending_entry nbOk nbOk "up.jpg"
      "20240101090005-07.jpg" "DEV1" "DEV1" ts0 0 1 "07" pd0 [("07", pd0)]
      (by decide) (by decide) (by decide)).1.2⟩

/-- C2: `add_pending_notification` (the store's `Put`) always succeeds and
inserts or replaces the entry for `user_id`; afterwards the store holds
exactly one entry for that key (other keys untouched), and after a second
scan registers, the data reachable under the key is the second scan's only —
the first scan's entry cannot be claimed any more. -/
theorem c2_put_replaces_single_entry_per_user (s : Store) (uid : String)
    (t : DateTime) (dev tss : String) (io vm : Int) (db : Nat) (now : Int)
    (hnd : (storeKeys s).Nodup) :
    findEntry (add_pending_notification s uid t dev tss io vm db now) uid
      = some ⟨t, dev, tss, io, vm, db, now⟩ ∧
    (∀ k, k ≠ uid →
      findEntry (add_pending_notification s uid t dev tss io vm db now) k
        = findEntry s k) ∧
    (storeKeys (add_pending_notification s uid t dev tss io vm db now)).Nodup ∧
    List.count uid
        (storeKeys (add_pending_notification s uid t dev tss io vm db now)) = 1 ∧
    (∀ d0, (uid, d0) ∈ add_pending_notification s uid t dev tss io vm db now →
      d0 = ⟨t, dev, tss, io, vm, db, now⟩) :=
  ⟨findEntry_putEntry_self s uid _,
   fun _ hk => findEntry_putEntry_ne s _ hk,
   storeKeys_putEntry_nodup _ hnd,
   count_storeKeys_putEntry s uid _ hnd,
   fun _ hm => mem_putEntry_eq hnd hm⟩

theorem c2_put_replaces_single_entry_per_user_witness :
    (storeKeys [("07", pd0)]).Nodup ∧
    findEntry
        (add_pending_notification [("07", pd0)] "07" pd1.attendance_time
          "DEV1" "2024-01-01 09:00:05" 1 1 0 1005) "07"
      = some ⟨pd1.attendance_time, "DEV1", "2024-01-01 09:00:05", 1, 1, 0, 1005⟩ :=
  ⟨by decide,
    (c2_put_replaces_single_entry_per_user [("07", pd0)] "07"
      pd1.attendance_time "DEV1" "2024-01-01 09:00:05" 1 1 0 1005
      (by decide)).1⟩

/-- C3: a scan whose photo lookup finds nothing registers a pending entry
and schedules a timeout worker with a 10-second wait; when the worker runs,
a still-present entry is removed and one request with `photo_path = none` is
dispatched, and an absent entry means nothing is dispatched. -/
theorem c3_no_photo_registers_pending_and_timeout_worker
    (fs : List PhotoFile) (now : Int) (db : Nat) (device_serial : String)
    (rec : AttRecord) (s : Store)
    (hph : find_latest_photo fs device_serial rec.user_id rec.ts = none) :
    (process_attendance_notification fs now db device_serial rec s).1
      = add_pending_notification s rec.user_id rec.ts device_serial
          rec.timestamp_str rec.in_out rec.verify_mode db now ∧
    (process_attendance_notification fs now db device_serial rec s).2
      = [BgTask.timeoutWorker timeoutDelaySeconds rec.user_id device_serial
          rec.ts rec.in_out rec.verify_mode] ∧
    timeoutDelaySeconds = 10 ∧
    findEntry (process_attendance_notification fs now db device_serial rec s).1
        rec.user_id
      = some ⟨rec.ts, device_serial, rec.timestamp_str, rec.in_out,
          rec.verify_mode, db, now⟩ ∧
    (∀ (nb : NotifierBehavior) (s2 : Store) d, findEntry s2 rec.user_id = some d →
      (handle_notification_timeout_sync nb rec.user_id device_serial rec.ts
          rec.in_out rec.verify_mode s2).store = eraseEntry s2 rec.user_id ∧
      (handle_notification_timeout_sync nb rec.user_id device_serial rec.ts
          rec.in_out rec.verify_mode s2).dispatched
        = [⟨rec.user_id, device_serial, rec.ts, rec.in_out, rec.verify_mode,
            none⟩]) ∧
    (∀ (nb : NotifierBehavior) (s2 : Store), findEntry s2 rec.user_id = none →
      handle_notification_timeout_sync nb rec.user_id device_serial rec.ts
        rec.in_out rec.verify_mode s2 = ⟨s2, [], none, none⟩) := by
  have hp : process_attendance_notification fs now db device_serial rec s
      = (add_pending_notification s rec.user_id rec.ts device_serial
          rec.timestamp_str rec.in_out rec.verify_mode db now,
        [BgTask.timeoutWorker timeoutDelaySeconds rec.user_id device_serial
          rec.ts rec.in_out rec.verify_mode]) := by
    simp [process_attendance_notification, hph]
  refine ⟨by rw [hp], by rw [hp], rfl, ?_, ?_, ?_⟩
  · rw [hp]
    exact findEntry_putEntry_self s rec.user_id _
  · intro nb s2 d hf
    exact timeout_found nb device_serial rec.ts rec.in_out rec.verify_mode hf
  · intro nb s2 hf
    exact timeout_not_found nb device_serial rec.ts rec.in_out rec.verify_mode hf

theorem c3_no_photo_registers_pending_and_timeout_worker_witness :
    find_latest_photo [] "DEV1" rec0.user_id rec0.ts = none ∧
    (process_attendance_notification [] 1000 0 "DEV1" rec0 []).2
      = [BgTask.timeoutWorker timeoutDelaySeconds rec0.user_id "DEV1" rec0.ts
          rec0.in_out rec0.verify_mode] :=
  ⟨by decide,
    (c3_no_photo_registers_pending_and_timeout_worker [] 1000 0 "DEV1" rec0 []
      (by decide)).2.1⟩

/-- C4: a scan whose photo lookup finds a photo queues exactly one immediate
send task carrying that photo reference and neither registers a pending entry
nor schedules a timeout worker; running the send task hands exactly that one
request, with `photo_path` set, to the notifier. -/
theorem c4_immediate_photo_dispatch_no_pending (fs : List PhotoFile)
    (now : Int) (db : Nat) (device_serial : String) (rec : AttRecord)
    (s : Store) (p : String)
    (hph : find_latest_photo fs device_serial rec.user_id rec.ts = some p) :
    process_attendance_notification fs now db device_serial rec s
      = (s, [BgTask.sendWithPhoto db
            ⟨rec.user_id, device_serial, rec.ts, rec.in_out, rec.verify_mode,
             some p⟩]) ∧
    (∀ nb : NotifierBehavior,
      (send_notification_with_photo nb db rec.user_id device_serial rec.ts
          rec.in_out rec.verify_mode p).1
        = [⟨rec.user_id, device_serial, rec.ts, rec.in_out, rec.verify_mode,
            some p⟩]) := by
  constructor
  · simp [process_attendance_notification, hph]
  · intro nb
    cases hnb : nb ⟨rec.user_id, device_serial, rec.ts, rec.in_out,
        rec.verify_mode, some p⟩ <;>
      simp [send_notification_with_photo, hnb]

theorem c4_immediate_photo_dispatch_no_pending_witness :
    find_latest_photo fs1 "DEV1" rec0.user_id rec0.ts
      = some "20240101090000-07.jpg" ∧
    process_attendance_notification fs1 1000 0 "DEV1" rec0 [("42", pd0)]
      = ([("42", pd0)],
         [BgTask.sendWithPhoto 0
           ⟨rec0.user_id, "DEV1", rec0.ts, rec0.in_out, rec0.verify_mode,
            some "20240101090000-07.jpg"⟩]) :=
  ⟨by decide,
    (c4_immediate_photo_dispatch_no_pending fs1 1000 0 "DEV1" rec0
      [("42", pd0)] "20240101090000-07.jpg" (by decide)).1⟩

/-- C7: a photo event whose user has no pending entry dispatches nothing,
leaves the store unchanged, catches no error and raises nothing — the
function returns normally on the expected race-loser path. -/
theorem c7_photo_without_pending_is_noop (nb : NotifierBehavior)
    (saved_path photo_filename device_serial uid : String) (s : Store)
    (hx : extractUserId photo_filename = some uid)
    (hf : findEntry s uid = none) :
    trigger_pending_notifications_sync nb saved_path photo_filename
      device_serial s = ⟨s, [], none, none⟩ :=
  trigger_not_found nb saved_path device_serial hx hf

theorem c7_photo_without_pending_is_noop_witness :
    extractUserId "20240101090005-07.jpg" = some "07" ∧
    findEntry [("08", pd0)] "07" = none ∧
    trigger_pending_notifications_sync nbOk "up.jpg" "20240101090005-07.jpg"
        "DEV1" [("08", pd0)]
      = ⟨[("08", pd0)], [], none, none⟩ :=
  ⟨by decide, by decide,
    c7_photo_without_pending_is_noop nbOk "up.jpg" "20240101090005-07.jpg"
      "DEV1" "07" [("08", pd0)] (by decide) (by decide)⟩

/-- C9: neither sync handler ever lets an exception escape to its caller —
for every notifier behaviour, including one that always raises, `raised` is
`none`; and when the notifier does raise on a successful claim, the handler
catches and records that exception. -/
theorem c9_handlers_never_raise (nb : NotifierBehavior)
    (saved_path photo_filename device_serial uid2 dev2 : String)
    (ts2 : DateTime) (io2 vm2 : Int) (s s2 : Store) :
    (trigger_pending_notifications_sync nb saved_path photo_filename
      device_serial s).raised = none ∧
    (handle_notification_timeout_sync nb uid2 dev2 ts2 io2 vm2 s2).raised
      = none ∧
    (∀ e : String, (∀ r, nb r = Except.error e) →
      (∀ uid d, extractUserId photo_filename = some uid →
        findEntry s uid = some d →
        (trigger_pending_notifications_sync nb saved_path photo_filename
          device_serial s).caught = some e) ∧
      (∀ d, findEntry s2 uid2 = some d →
        (handle_notification_timeout_sync nb uid2 dev2 ts2 io2 vm2 s2).caught
          = some e)) := by
  refine ⟨trigger_raised_none nb saved_path photo_filename device_serial s,
    timeout_raised_none nb uid2 dev2 ts2 io2 vm2 s2, ?_⟩
  intro e he
  constructor
  · intro uid d hx hf
    exact trigger_found_caught nb saved_path device_serial hx hf (he _)
  · intro d hf
    exact timeout_found_caught nb dev2 ts2 io2 vm2 hf (he _)

theorem c9_handlers_never_raise_witness :
    (trigger_pending_notifications_sync nbFail "up.jpg"
      "20240101090005-07.jpg" "DEV1" [("07", pd0)]).raised = none ∧
    (trigger_pending_notifications_sync nbFail "up.jpg"
      "20240101090005-07.jpg" "DEV1" [("07", pd0)]).caught
      = some "network down" ∧
    (handle_notification_timeout_sync nbFail "07" "DEV1" ts0 0 1
      [("07", pd0)]).raised = none :=
  ⟨(c9_handlers_never_raise nbFail "up.jpg" "20240101090005-07.jpg" "DEV1"
      "07" "DEV1" ts0 0 1 [("07", pd0)] [("07", pd0)]).1,
    ((c9_handlers_never_raise nbFail "up.jpg" "20240101090005-07.jpg" "DEV1"
      "07" "DEV1" ts0 0 1 [("07", pd0)] [("07", pd0)]).2.2 "network down"
      (fun _ => rfl)).1 "07" pd0 (by decide) (by decide),
    (c9_handlers_never_raise nbFail "up.jpg" "20240101090005-07.jpg" "DEV1"
      "07" "DEV1" ts0 0 1 [("07", pd0)] [("07", pd0)]).2.1⟩

/-- C10: matching of photo events against pending entries is exact string
equality on `user_id` — a pending entry under a different key than the
extracted id is untouched and no request is dispatched for it; in
particular a pending `"07"` is not claimed by a photo with id `"7"` and
vice versa, while the exactly-equal id does claim it. -/
theorem c10_exact_string_matching (nb : NotifierBehavior)
    (saved_path photo_filename device_serial uid k : String) (d : PendingData)
    (s : Store) (hx : extractUserId photo_filename = some uid)
    (hne : uid ≠ k) (hf : findEntry s k = some d) :
    (findEntry (trigger_pending_notifications_sync nb saved_path
        photo_filename device_serial s).store k = some d ∧
      (∀ r ∈ (trigger_pending_notifications_sync nb saved_path photo_filename
        device_serial s).dispatched, r.user_id ≠ k)) ∧
    trigger_pending_notifications_sync nbOk "up.jpg" "20240101090000-7.jpg"
        "DEV1" [("07", pd0)] = ⟨[("07", pd0)], [], none, none⟩ ∧
    (trigger_pending_notifications_sync nbOk "up.jpg" "20240101090000-07.jpg"
        "DEV1" [("07", pd0)]).store = [] ∧
    trigger_pending_notifications_sync nbOk "up.jpg" "20240101090000-07.jpg"
        "DEV1" [("7", pd0)] = ⟨[("7", pd0)], [], none, none⟩ ∧
    (trigger_pending_notifications_sync nbOk "up.jpg" "20240101090000-7.jpg"
        "DEV1" [("7", pd0)]).store = [] := by
  refine ⟨?_, by decide, by decide, by decide, by decide⟩
  cases hfu : findEntry s uid with
  | none =>
    rw [trigger_not_found nb saved_path device_serial hx hfu]
    exact ⟨hf, by intro r hr; cases hr⟩
  | some du =>
    obtain ⟨hs, hd⟩ := trigger_found nb saved_path device_serial hx hfu
    constructor
    · rw [hs, findEntry_eraseEntry_ne (fun he => hne he.symm)]
      exact hf
    · intro r hr
      rw [hd, List.mem_singleton] at hr
      subst hr
      exact hne

theorem filter_keep_of_not_mem_keys {s : Store} {k : String}
    (h : k ∉ storeKeys s) :
    s.filter (fun kv => decide (¬ kv.1 = k)) = s := by
  refine List.filter_eq_self.mpr ?_
  intro a ha
  refine decide_eq_true ?_
  intro hak
  exact h (List.mem_map.mpr ⟨a, ha, hak⟩)

theorem eraseEntry_eq_filter {s : Store} (k : String)
    (h : (storeKeys s).Nodup) :
    eraseEntry s k = s.filter (fun kv => decide (¬ kv.1 = k)) := by
  induction s with
  | nil => rfl
  | cons hd tl ih =>
    obtain ⟨k2, v⟩ := hd
    rw [storeKeys_cons, List.nodup_cons] at h
    by_cases hk : k2 = k
    · subst hk
      have hcons : List.filter (fun kv => decide (¬ kv.1 = k2)) ((k2, v) :: tl)
          = List.filter (fun kv => decide (¬ kv.1 = k2)) tl := by
        simp [List.filter_cons]
      rw [eraseEntry_cons_self, hcons, filter_keep_of_not_mem_keys h.1]
    · have hcons : List.filter (fun kv => decide (¬ kv.1 = k)) ((k2, v) :: tl)
          = (k2, v) :: List.filter (fun kv => decide (¬ kv.1 = k)) tl := by
        simp [List.filter_cons, hk]
      rw [eraseEntry_cons_ne hk, hcons, ih h.2]

theorem foldl_eraseEntry_eq_filter (ks : List String) {s : Store}
    (h : (storeKeys s).Nodup) :
    ks.foldl eraseEntry s = s.filter (fun kv => decide (kv.1 ∉ ks)) := by
  induction ks generalizing s with
  | nil =>
    simp only [List.foldl_nil]
    rw [List.filter_eq_self.mpr]
    intro a _
    exact decide_eq_true (List.not_mem_nil a.1)
  | cons k ks ih =>
    rw [List.foldl_cons, ih (storeKeys_eraseEntry_nodup k h),
      eraseEntry_eq_filter k h, List.filter_filter]
    refine List.filter_congr ?_
    intro kv _
    by_cases h1 : kv.1 = k <;> by_cases h2 : kv.1 ∈ ks <;>
      simp [h1, h2, List.mem_cons]

theorem mem_keys_of_filter_iff {s : Store} {p : String × PendingData → Bool}
    (h : (storeKeys s).Nodup) {kv : String × PendingData} (hkv : kv ∈ s) :
    kv.1 ∈ (s.filter p).map Prod.fst ↔ p kv = true := by
  constructor
  · intro hm
    rcases List.mem_map.mp hm with ⟨kv2, hkv2, hfst⟩
    rcases List.mem_filter.mp hkv2 with ⟨hkv2s, hp2⟩
    have : kv2 = kv := List.inj_on_of_nodup_map h hkv2s hkv hfst
    rw [← this]
    exact hp2
  · intro hp
    exact List.mem_map.mpr ⟨kv, List.mem_filter.mpr ⟨hkv, hp⟩, rfl⟩

/-- C6: the sweep removes exactly the pending entries strictly older than the
5-minute max age (300 seconds), keeps every younger entry, and returns the
number removed. -/
theorem c6_sweep_removes_exactly_expired (now : Int) (s : Store)
    (hnd : (storeKeys s).Nodup) :
    pendingMaxAgeSeconds = 300 ∧
    (cleanup_expired_pending_notifications now s).2
      = (s.filter (fun kv =>
          decide (now - kv.2.created_at > pendingMaxAgeSeconds))).length ∧
    (∀ e, e ∈ (cleanup_expired_pending_notifications now s).1 ↔
      e ∈ s ∧ now - e.2.created_at ≤ pendingMaxAgeSeconds) := by
  refine ⟨rfl, ?_, ?_⟩
  · show ((s.filter fun kv =>
        decide (now - kv.2.created_at > pendingMaxAgeSeconds)).map
          Prod.fst).length = _
    rw [List.length_map]
  · intro e
    show e ∈ List.foldl eraseEntry s _ ↔ _
    rw [foldl_eraseEntry_eq_filter _ hnd]
    constructor
    · intro hm
      rcases List.mem_filter.mp hm with ⟨hes, hp⟩
      refine ⟨hes, ?_⟩
      have := of_decide_eq_true hp
      rw [mem_keys_of_filter_iff hnd hes] at this
      by_contra hlt
      exact this (decide_eq_true (by omega))
    · intro ⟨hes, hage⟩
      refine List.mem_filter.mpr ⟨hes, decide_eq_true ?_⟩
      rw [mem_keys_of_filter_iff hnd hes]
      intro hp
      have := of_decide_eq_true hp
      omega

theorem c6_sweep_removes_exactly_expired_witness :
    (storeKeys sSweep).Nodup ∧
    (∀ e, e ∈ (cleanup_expired_pending_notifications 1000 sSweep).1 ↔
      e ∈ sSweep ∧ 1000 - e.2.created_at ≤ pendingMaxAgeSeconds) :=
  ⟨by decide,
    (c6_sweep_removes_exactly_expired 1000 sSweep (by decide)).2.2⟩

theorem takeWhile_digits_append {ds : List Char} (r2 : List Char)
    (hds : ∀ c ∈ ds, c.isDigit = true) :
    (ds ++ '.' :: r2).takeWhile Char.isDigit = ds ∧
    (ds ++ '.' :: r2).dropWhile Char.isDigit = '.' :: r2 := by
  induction ds with
  | nil =>
    constructor
    · rw [List.nil_append, List.takeWhile_cons]
      simp
    · rw [List.nil_append, List.dropWhile_cons]
      simp
  | cons c cs ih =>
    have hc : c.isDigit = true := hds c (List.mem_cons_self c cs)
    have hcs : ∀ x ∈ cs, x.isDigit = true :=
      fun x hx => hds x (List.mem_cons_of_mem c hx)
    constructor
    · rw [List.cons_append, List.takeWhile_cons, hc]
      simp only [if_true]
      rw [(ih hcs).1]
    · rw [List.cons_append, List.dropWhile_cons, hc]
      simp only [if_true]
      exact (ih hcs).2

theorem matchPhotoPattern_some_iff (f : String) :
    (matchPhotoPattern f).isSome = true ↔ MatchesPrefixPattern f := by
  constructor
  · intro h
    unfold matchPhotoPattern at h
    split at h
    case isTrue hc =>
      rw [Bool.and_eq_true] at hc
      obtain ⟨hlen, hdig⟩ := hc
      split at h
      case h_1 => simp at h
      case h_2 c r hr =>
        split at h
        case isTrue hdash =>
          split at h
          case isTrue hjp =>
            rw [Bool.and_eq_true] at hjp
            obtain ⟨hne, hpre⟩ := hjp
            rcases List.isPrefixOf_iff_prefix.mp hpre with ⟨t, ht⟩
            refine ⟨f.toList.take 14, r.takeWhile Char.isDigit, t, ?_, ?_, ?_, ?_, ?_⟩
            · calc f.toList
                  = f.toList.take 14 ++ f.toList.drop 14 :=
                    (List.take_append_drop 14 f.toList).symm
                _ = f.toList.take 14 ++ c :: r := by rw [hr]
                _ = f.toList.take 14
                    ++ '-' :: (r.takeWhile Char.isDigit ++ jpgChars ++ t) := by
                    rw [hdash, List.append_assoc, ht,
                      List.takeWhile_append_dropWhile]
            · exact of_decide_eq_true hlen
            · exact List.all_eq_true.mp hdig
            · rw [Bool.not_eq_true'] at hne
              exact List.isEmpty_eq_false.mp hne
            · exact fun c2 hc2 => List.mem_takeWhile_imp hc2
          case isFalse => simp at h
        case isFalse => simp at h
    case isFalse => simp at h
  · rintro ⟨ts, ds, rest, heq, h14, hdig, hne, hdsdig⟩
    have htake : f.toList.take 14 = ts := by
      rw [heq]
      exact List.take_left' h14
    have hdrop : f.toList.drop 14 = '-' :: (ds ++ jpgChars ++ rest) := by
      rw [heq]
      exact List.drop_left' h14
    have hsplit :
        (ds ++ jpgChars ++ rest).takeWhile Char.isDigit = ds ∧
        (ds ++ jpgChars ++ rest).dropWhile Char.isDigit
          = '.' :: ('j' :: 'p' :: 'g' :: rest) := by
      have : ds ++ jpgChars ++ rest = ds ++ '.' :: ('j' :: 'p' :: 'g' :: rest) := by
        rw [List.append_assoc]
        rfl
      rw [this]
      exact takeWhile_digits_append _ hdsdig
    unfold matchPhotoPattern
    rw [htake, hdrop]
    have hcond : (decide (ts.length = 14) && ts.all Char.isDigit) = true := by
      rw [Bool.and_eq_true, decide_eq_true_eq, List.all_eq_true]
      exact ⟨h14, hdig⟩
    rw [if_pos hcond]
    simp only [if_pos rfl]
    rw [hsplit.1, hsplit.2]
    have hpre : jpgChars.isPrefixOf ('.' :: ('j' :: 'p' :: 'g' :: rest)) = true := by
      refine List.isPrefixOf_iff_prefix.mpr ?_
      exact ⟨rest, rfl⟩
    have hnemp : ds.isEmpty = false := List.isEmpty_eq_false.mpr hne
    rw [hnemp, hpre]
    rfl

theorem firstPhotoWithin_some {t : DateTime} {l : List String} {p : String}
    (h : firstPhotoWithin t l = some p) : p ∈ l ∧ WithinWindow t p := by
  induction l with
  | nil => cases h
  | cons name rest ih =>
    unfold firstPhotoWithin at h
    cases hpt : photoPrefixTime name with
    | none =>
      simp only [hpt] at h
      rcases ih h with ⟨hm, hw⟩
      exact ⟨List.mem_cons_of_mem _ hm, hw⟩
    | some pt =>
      simp only [hpt] at h
      by_cases hd : (t.toSecs - pt.toSecs).natAbs ≤ photoProximitySeconds
      · rw [if_pos hd] at h
        cases h
        exact ⟨List.mem_cons_self _ _, ⟨pt, hpt, hd⟩⟩
      · rw [if_neg hd] at h
        rcases ih h with ⟨hm, hw⟩
        exact ⟨List.mem_cons_of_mem _ hm, hw⟩

theorem firstPhotoWithin_isSome {t : DateTime} {l : List String}
    (h : ∃ p ∈ l, WithinWindow t p) :
    (firstPhotoWithin t l).isSome = true := by
  induction l with
  | nil =>
    rcases h with ⟨p, hp, _⟩
    cases hp
  | cons name rest ih =>
    rcases h with ⟨p, hp, hw⟩
    rw [List.mem_cons] at hp
    unfold firstPhotoWithin
    cases hpt : photoPrefixTime name with
    | none =>
      simp only []
      rcases hp with hp | hp
      · subst hp
        rcases hw with ⟨pt, hpt2, _⟩
        rw [hpt] at hpt2
        cases hpt2
      · exact ih ⟨p, hp, hw⟩
    | some pt =>
      simp only []
      by_cases hd : (t.toSecs - pt.toSecs).natAbs ≤ photoProximitySeconds
      · rw [if_pos hd]
        rfl
      · rw [if_neg hd]
        rcases hp with hp | hp
        · subst hp
          rcases hw with ⟨pt2, hpt2, hd2⟩
          rw [hpt] at hpt2
          injection hpt2 with he
          subst he
          exact absurd hd2 hd
        · exact ih ⟨p, hp, hw⟩

theorem mem_insertDesc {x a : String} {l : List String} :
    a ∈ insertDesc x l ↔ a = x ∨ a ∈ l := by
  induction l with
  | nil => simp [insertDesc]
  | cons y ys ih =>
    unfold insertDesc
    by_cases hxy : x < y
    · rw [if_pos hxy]
      rw [List.mem_cons, List.mem_cons, ih]
      tauto
    · rw [if_neg hxy]
      rw [List.mem_cons, List.mem_cons]

theorem mem_sortDesc {a : String} {l : List String} :
    a ∈ sortDesc l ↔ a ∈ l := by
  induction l with
  | nil => simp [sortDesc]
  | cons x xs ih =>
    unfold sortDesc
    rw [mem_insertDesc, ih, List.mem_cons]

theorem mem_globPhotoNames {fs : List PhotoFile} {dev uid dfold p : String} :
    p ∈ globPhotoNames fs dev uid dfold ↔
      ∃ f ∈ fs, f.device_serial = dev ∧ f.date_folder = dfold ∧
        ("-" ++ uid ++ ".jpg").toList.isSuffixOf f.name.toList = true ∧
        f.name = p := by
  unfold globPhotoNames
  rw [List.mem_map]
  constructor
  · rintro ⟨f, hf, hname⟩
    rcases List.mem_filter.mp hf with ⟨hfs, hp⟩
    simp only [Bool.and_eq_true, beq_iff_eq] at hp
    exact ⟨f, hfs, hp.1.1, hp.1.2, hp.2, hname⟩
  · rintro ⟨f, hfs, hdev, hfold, hsuf, hname⟩
    refine ⟨f, List.mem_filter.mpr ⟨hfs, ?_⟩, hname⟩
    simp only [Bool.and_eq_true, beq_iff_eq]
    exact ⟨⟨hdev, hfold⟩, hsuf⟩

/-- C5 counterexample: a photo of user 07 on device DEV1 stored (and taken)
at 2024-01-01 23:59:30 is only 90 seconds — well within 180 — from a scan at
2024-01-02 00:01:00, yet `find_latest_photo` returns `None`, because it
searches only the folder of the scan's own calendar date. -/
theorem c5_counterexample_cross_midnight :
    specStoredPhotoWithin fsMidnight "DEV1" "07" tsMidnight = true ∧
    find_latest_photo fsMidnight "DEV1" "07" tsMidnight = none := by
  refine ⟨by decide, by decide⟩

/-- C5 (amended): `find_latest_photo` returns a photo reference iff some
photo stored in the folder of the scan's calendar date for that device has a
name ending in `-{user_id}.jpg` whose leading 14-digit timestamp parses and
lies within 180 seconds of the scan time; a returned photo always has its
parsed timestamp within 180 seconds of the scan time.  (The claim as frozen
quantifies over all stored photos; the code additionally restricts the
search to the scan-date folder, so a within-window photo stored under an
adjacent date — e.g. across midnight — is not found.) -/
theorem c5_lookup_iff_same_date_folder_within_window (fs : List PhotoFile)
    (dev uid : String) (t : DateTime) :
    ((find_latest_photo fs dev uid t).isSome = true ↔
      ∃ f ∈ fs, f.device_serial = dev ∧ f.date_folder = formatDate t ∧
        ("-" ++ uid ++ ".jpg").toList.isSuffixOf f.name.toList = true ∧
        WithinWindow t f.name) ∧
    (∀ p, find_latest_photo fs dev uid t = some p → WithinWindow t p) := by
  refine ⟨⟨?_, ?_⟩, ?_⟩
  · intro h
    rw [Option.isSome_iff_exists] at h
    rcases h with ⟨p, hp⟩
    rcases firstPhotoWithin_some hp with ⟨hm, hw⟩
    rw [mem_sortDesc] at hm
    rcases mem_globPhotoNames.mp hm with ⟨f, hfs, hdev, hfold, hsuf, hname⟩
    exact ⟨f, hfs, hdev, hfold, hsuf, hname ▸ hw⟩
  · rintro ⟨f, hfs, hdev, hfold, hsuf, hw⟩
    refine firstPhotoWithin_isSome ⟨f.name, ?_, hw⟩
    rw [mem_sortDesc]
    exact mem_globPhotoNames.mpr ⟨f, hfs, hdev, hfold, hsuf, rfl⟩
  · intro p hp
    exact (firstPhotoWithin_some hp).2

theorem c5_lookup_iff_same_date_folder_within_window_witness :
    (find_latest_photo fs1 "DEV1" "07" rec0.ts).isSome = true ∧
    (∃ f ∈ fs1, f.device_serial = "DEV1" ∧
      f.date_folder = formatDate rec0.ts ∧
      ("-" ++ "07" ++ ".jpg").toList.isSuffixOf f.name.toList = true ∧
      WithinWindow rec0.ts f.name) :=
  ⟨by decide,
    (c5_lookup_iff_same_date_folder_within_window fs1 "DEV1" "07" rec0.ts).1.mp
      (by decide)⟩

/-- C8 counterexample: the filename `"20240101090000-7.jpgx"` does not match
the spec's convention (the whole name: 14 digits, dash, numeric id, `.jpg`),
yet the photo path extracts user id `"7"` and proceeds to claim and dispatch,
because `re.match` anchors the pattern at the start of the name only. -/
theorem c8_counterexample_trailing_chars_accepted :
    specFilenameConvention "20240101090000-7.jpgx" = false ∧
    extractUserId "20240101090000-7.jpgx" = some "7" ∧
    (trigger_pending_notifications_sync nbOk "up.jpg" "20240101090000-7.jpgx"
        "DEV1" [("7", pd0)]).dispatched.length = 1 ∧
    (trigger_pending_notifications_sync nbOk "up.jpg" "20240101090000-7.jpgx"
        "DEV1" [("7", pd0)]).store = [] := by
  refine ⟨by decide, by decide, by decide, by decide⟩

/-- C8 (amended): the photo path extracts a user id (and can proceed to the
claim) exactly when the filename BEGINS with the convention pattern —
14-digit timestamp, dash, nonempty numeric id, `.jpg` — with arbitrary
trailing characters allowed after `.jpg`; for any filename not matching this
prefix pattern the handler returns with no dispatch, an unchanged store and
no error. -/
theorem c8_extraction_iff_prefix_pattern (f : String) :
    ((extractUserId f).isSome = true ↔ MatchesPrefixPattern f) ∧
    (extractUserId f = none →
      ∀ (nb : NotifierBehavior) (sp dev : String) (s : Store),
        trigger_pending_notifications_sync nb sp f dev s
          = ⟨s, [], none, none⟩) := by
  constructor
  · rw [← matchPhotoPattern_some_iff]
    unfold extractUserId
    cases matchPhotoPattern f <;> simp
  · intro hx nb sp dev s
    exact trigger_no_extract nb sp dev s hx

theorem c8_extraction_iff_prefix_pattern_witness :
    MatchesPrefixPattern "20240101090000-07.jpg" ∧
    trigger_pending_notifications_sync nbOk "up.jpg" "20240101090000-07.png"
        "DEV1" [("07", pd0)] = ⟨[("07", pd0)], [], none, none⟩ :=
  ⟨(c8_extraction_iff_prefix_pattern "20240101090000-07.jpg").1.mp (by decide),
    (c8_extraction_iff_prefix_pattern "20240101090000-07.png").2 (by decide)
      nbOk "up.jpg" "DEV1" [("07", pd0)]⟩

theorem c10_exact_string_matching_witness :
    extractUserId "20240101090000-7.jpg" = some "7" ∧
    findEntry [("07", pd0)] "07" = some pd0 ∧
    findEntry (trigger_pending_notifications_sync nbOk "up.jpg"
        "20240101090000-7.jpg" "DEV1" [("07", pd0)]).store "07" = some pd0 :=
  ⟨by decide, by decide,
    (c10_exact_string_matching nbOk "up.jpg" "20240101090000-7.jpg" "DEV1"
      "7" "07" pd0 [("07", pd0)] (by decide) (by decide) (by decide)).1.1⟩

end Adms
